import Mathlib

/-!
Verification of the persistent-storage backends of the hal-teensy repository.

The embedding translates the three storage backends
(`EEPROMBackend`, `LittleFSBackend`, the cached `SDCardBackend`, and the
direct file-handle `SDCardBackend` variant, here namespaced `Direct`)
into pure Lean functions over explicit state records.

Modelling conventions, shared by all definitions below:

* Bytes are `Nat` (byte values; the code never depends on 8-bit wraparound
  for the properties considered here). `0xFF` is written `255`.
* Each C++ method `m` becomes `Backend.m : Backend → args → Backend × result`,
  with the possibly-updated object state threaded explicitly.  A method that
  fills a caller buffer returns the filled byte list (an early-rejected call
  writes nothing into the caller's buffer, modelled by returning `[]`).
* External filesystem/hardware services (mount success, file-open success,
  the number of bytes the physical layer actually transfers) are oracle
  parameters of the operation that consults them.
* `EEPROM` (the Teensy core library) is a 4096-byte array; `EEPROM.read` /
  `EEPROM.update` / `EEPROM.length` are modelled as function lookup, function
  update and the constant 4096 (`EEPROM.update` writes the byte exactly when
  it differs, which yields the same resulting array as an unconditional
  store, so it is modelled as a store).
* Uninitialized heap memory (`new uint8_t[n]` without initialization) is
  modelled by an explicit `junk : Nat → Nat` parameter: the value of the
  allocation at each offset.  The C++ program gives no guarantee about those
  values, so theorems quantify over `junk` (or exhibit its influence).
-/

/-- State of `EEPROMBackend` (part_001): the 4KB emulated EEPROM array.
The backend object itself is stateless; the medium is the EEPROM content. -/
structure EEPROMBackend where
  rom : Nat → Nat

/-- `EEPROM.length()` is 4096 on Teensy 4.x. -/
def EEPROMBackend.capacity (_ : EEPROMBackend) : Nat := 4096

/-- `EEPROMBackend::begin`: always succeeds, no state change. -/
def EEPROMBackend.begin (st : EEPROMBackend) : EEPROMBackend × Bool :=
  (st, true)

/-- `EEPROMBackend::available`: always true. -/
def EEPROMBackend.available (_st : EEPROMBackend) : Bool :=
  true

/-- `EEPROMBackend::read`: bounds-guarded byte-wise copy out of EEPROM. -/
def EEPROMBackend.read (st : EEPROMBackend) (address size : Nat) :
    EEPROMBackend × Nat × List Nat :=
  if address + size > st.capacity then (st, 0, [])
  else (st, size, List.ofFn (fun i : Fin size => st.rom (address + i.val)))

/-- `EEPROMBackend::write`: bounds-guarded byte-wise `EEPROM.update` loop. -/
def EEPROMBackend.write (st : EEPROMBackend) (address : Nat)
    (buffer : List Nat) : EEPROMBackend × Nat :=
  if address + buffer.length > st.capacity then (st, 0)
  else
    ({ rom := fun x =>
        if address ≤ x ∧ x < address + buffer.length
        then buffer.getD (x - address) 0 else st.rom x },
     buffer.length)

/-- `EEPROMBackend::erase`: bounds-guarded `EEPROM.update(·, 0xFF)` loop. -/
def EEPROMBackend.erase (st : EEPROMBackend) (address size : Nat) :
    EEPROMBackend × Bool :=
  if address + size > st.capacity then (st, false)
  else
    ({ rom := fun x =>
        if address ≤ x ∧ x < address + size then 255 else st.rom x },
     true)

/-- `EEPROMBackend::commit`: immediate backend, always-true no-op. -/
def EEPROMBackend.commit (st : EEPROMBackend) : EEPROMBackend × Bool :=
  (st, true)

/-- `EEPROMBackend::isDirty`: always false. -/
def EEPROMBackend.isDirty (_ : EEPROMBackend) : Bool :=
  false

/-- Seek-to-`address` then read-up-to-`size` then pad-with-`0xFF`:
the common shape of the file-backed `read` implementations.  Modelled from
the spec for the external filesystem libraries' `File::seek`/`File::read`:
a seek at or past the end of the file succeeds and the following read
transfers 0 bytes (spec section 4.3: "if the file is absent or shorter than
requested, the missing tail is filled with 0xFF"). -/
def fileReadFrom (c : List Nat) (address size : Nat) : List Nat :=
  let bytes := (c.drop address).take size
  bytes ++ List.replicate (size - bytes.length) 255

/-- State of `LittleFSBackend` (part_000): virtual capacity, the
initialized flag, and the single backing file of the mounted filesystem
(`none` while the file does not exist). -/
structure LittleFSBackend where
  capacity : Nat
  initialized : Bool
  file : Option (List Nat)

/-- `LittleFSBackend::begin`: idempotent mount; `mountOk` is the oracle for
`fs_.begin(fsSize_)`. -/
def LittleFSBackend.begin (st : LittleFSBackend) (mountOk : Bool) :
    LittleFSBackend × Bool :=
  if st.initialized then (st, true)
  else if !mountOk then (st, false)
  else ({ st with initialized := true }, true)

/-- `LittleFSBackend::available`. -/
def LittleFSBackend.available (st : LittleFSBackend) : Bool :=
  st.initialized

/-- `LittleFSBackend::read`: guard, then open the file (absent file reads
as all `0xFF`), seek to `address`, read and `0xFF`-pad the short tail. -/
def LittleFSBackend.read (st : LittleFSBackend) (address size : Nat) :
    LittleFSBackend × Nat × List Nat :=
  if ¬st.initialized ∨ address + size > st.capacity then (st, 0, [])
  else
    match st.file with
    | none => (st, size, List.replicate size 255)
    | some c => (st, size, fileReadFrom c address size)

/-- The `address` bytes `LittleFSBackend::write` emits before the new data:
when the existing file is nonempty and `address > 0`, the `temp` heap buffer
— `new uint8_t[address]` whose first `min existingSize address` bytes come
from `file.read(temp, address)` and whose remaining bytes keep the
allocator's `junk` values; when the file is empty/absent, explicit `0xFF`
padding up to `address`; nothing when `address = 0`. -/
def writeFront (existing : List Nat) (address : Nat) (junk : Nat → Nat) :
    List Nat :=
  if existing.length > 0 ∧ address > 0 then
    List.ofFn (fun i : Fin address =>
      if i.val < existing.length then existing.getD i.val 0 else junk i.val)
  else if address > 0 then
    List.replicate address 255
  else []

/-- `LittleFSBackend::write` (read-modify-rewrite):
guard; read the existing file's first `min address existingSize` bytes into
a fresh heap buffer of `address` bytes (allocated only when the file is
nonempty and `address > 0`; its bytes past the transferred part keep the
allocator's `junk` values); reopen the file for writing — modelled from the
spec: "opens the file in write (truncate) mode" (section 4.3), the external
library's open-for-write with create is assumed to succeed on a mounted
filesystem and the flash write path to transfer fully — emit the `address`
preserved/padding bytes (`writeFront`) and then the new data. -/
def LittleFSBackend.write (st : LittleFSBackend) (address : Nat)
    (buffer : List Nat) (junk : Nat → Nat) : LittleFSBackend × Nat :=
  if ¬st.initialized ∨ address + buffer.length > st.capacity then (st, 0)
  else
    ({ st with
        file := some (writeFront (st.file.getD []) address junk ++ buffer) },
     buffer.length)

/-- `LittleFSBackend::commit`: no-op, the filesystem is already durable. -/
def LittleFSBackend.commit (st : LittleFSBackend) : LittleFSBackend × Bool :=
  (st, true)

/-- `LittleFSBackend::erase`: write `size` bytes of `0xFF` through
`LittleFSBackend::write` and report whether all of them were written. -/
def LittleFSBackend.erase (st : LittleFSBackend) (address size : Nat)
    (junk : Nat → Nat) : LittleFSBackend × Bool :=
  if ¬st.initialized then (st, false)
  else
    let r := st.write address (List.replicate size 255) junk
    (r.1, r.2 == size)

/-- State of the cached `SDCardBackend` (part_005).  The RAM cache is a
byte function together with its explicit length (`cache_.size()`); values of
`cache` at indices `≥ cacheLen` are phantom (the C++ vector has no such
cells) and every operation below maintains them consistently. -/
structure SDCardBackend where
  capacity : Nat
  initialized : Bool
  dirty : Bool
  cache : Nat → Nat
  cacheLen : Nat

/-- The SD-card environment of the cached backend: live media presence and
the single backing file on the card. -/
structure SDEnv where
  present : Bool
  file : Option (List Nat)

/-- `SDCardBackend::begin`: idempotent; on first success (`beginOk` is the
oracle for `SD.begin(BUILTIN_SDCARD)`) loads the backing file into the
cache, clamped to `capacity` (`loadToCache`, which always returns true). -/
def SDCardBackend.begin (st : SDCardBackend) (sd : SDEnv) (beginOk : Bool) :
    SDCardBackend × Bool :=
  if st.initialized then (st, true)
  else if !beginOk then (st, false)
  else
    match sd.file with
    | none => ({ st with initialized := true, cache := fun _ => 0, cacheLen := 0 }, true)
    | some c =>
      let fileSize := min c.length st.capacity
      ({ st with initialized := true,
                 cache := fun i => c.getD i 0, cacheLen := fileSize }, true)

/-- Cached `SDCardBackend::available`: returns only `initialized_`.  The
`mediaPresent` parameter is the live `SD.mediaPresent()` state of the
environment at the time of the call; the implementation does not consult it. -/
def SDCardBackend.available (st : SDCardBackend) (_mediaPresent : Bool) : Bool :=
  st.initialized

/-- Cached `SDCardBackend::read`: pure cache read; the three branches are
fully-within-cache (memcpy), straddling the cache end (memcpy + 0xFF
memset), entirely beyond the cache (0xFF memset). -/
def SDCardBackend.read (st : SDCardBackend) (address size : Nat) :
    SDCardBackend × Nat × List Nat :=
  if ¬st.initialized ∨ address + size > st.capacity then (st, 0, [])
  else if address + size ≤ st.cacheLen then
    (st, size, List.ofFn (fun i : Fin size => st.cache (address + i.val)))
  else if address < st.cacheLen then
    let fromCache := st.cacheLen - address
    (st, size, List.ofFn (fun i : Fin fromCache => st.cache (address + i.val))
               ++ List.replicate (size - fromCache) 255)
  else (st, size, List.replicate size 255)

/-- Cached `SDCardBackend::write`: guard; grow the cache to
`address + size` when needed, filling the gap `[cacheLen, address)` with
`0xFF` (the resize's zero-fill beyond the gap is immediately overwritten by
the memcpy); copy the data; set the dirty flag.  Phantom values past the
new length are fixed at `255`. -/
def SDCardBackend.write (st : SDCardBackend) (address : Nat)
    (buffer : List Nat) : SDCardBackend × Nat :=
  if ¬st.initialized ∨ address + buffer.length > st.capacity then (st, 0)
  else
    ({ st with
        cache := fun i =>
          if address ≤ i ∧ i < address + buffer.length then buffer.getD (i - address) 0
          else if i < st.cacheLen then st.cache i
          else 255,
        cacheLen := max st.cacheLen (address + buffer.length),
        dirty := true },
     buffer.length)

/-- Cached `SDCardBackend::erase`: guard; grow the cache to
`address + size` when needed with `0xFF` fill; memset the region to `0xFF`;
set the dirty flag.  Same phantom convention as `write`. -/
def SDCardBackend.erase (st : SDCardBackend) (address size : Nat) :
    SDCardBackend × Bool :=
  if ¬st.initialized ∨ address + size > st.capacity then (st, false)
  else
    ({ st with
        cache := fun i =>
          if address ≤ i ∧ i < address + size then 255
          else if i < st.cacheLen then st.cache i
          else 255,
        cacheLen := max st.cacheLen (address + size),
        dirty := true },
     true)

/-- Cached `SDCardBackend::commit`: no-op success when clean or not
initialized; otherwise open the file (`openOk` oracle, e.g. false when the
card was removed), overwrite it from position 0 with the cache
(`transferred` is the byte count the physical layer accepts, capped at the
requested `cacheLen`), truncate to the written count, and clear the dirty
flag exactly when the full cache length was transferred (`transferred` is
the byte count `file.write` reports; a real device reports at most the
requested `cacheLen`). -/
def SDCardBackend.commit (st : SDCardBackend) (sd : SDEnv) (openOk : Bool)
    (transferred : Nat) : SDCardBackend × SDEnv × Bool :=
  if ¬st.dirty ∨ ¬st.initialized then (st, sd, true)
  else if !openOk then (st, sd, false)
  else
    let newFile := List.ofFn (fun i : Fin transferred => st.cache i.val)
    if transferred == st.cacheLen then
      ({ st with dirty := false }, { sd with file := some newFile }, true)
    else
      (st, { sd with file := some newFile }, false)

/-- `SDCardBackend::capacity`. -/
def SDCardBackend.capacityOf (st : SDCardBackend) : Nat :=
  st.capacity

/-- `SDCardBackend::isDirty`. -/
def SDCardBackend.isDirty (st : SDCardBackend) : Bool :=
  st.dirty

/-- `SDCardBackend::cacheSize`. -/
def SDCardBackend.cacheSize (st : SDCardBackend) : Nat :=
  st.cacheLen

/-- One call against the cached SD backend, carrying the environment/oracle
inputs the call consumes. -/
inductive SDOp where
  | beginOp (sd : SDEnv) (beginOk : Bool)
  | readOp (address size : Nat)
  | writeOp (address : Nat) (buffer : List Nat)
  | eraseOp (address size : Nat)
  | commitOp (sd : SDEnv) (openOk : Bool) (transferred : Nat)

/-- The backend state after one call. -/
def SDCardBackend.step (st : SDCardBackend) (op : SDOp) : SDCardBackend :=
  match op with
  | .beginOp sd ok => (st.begin sd ok).1
  | .readOp a n => (st.read a n).1
  | .writeOp a buf => (st.write a buf).1
  | .eraseOp a n => (st.erase a n).1
  | .commitOp sd ok t => (st.commit sd ok t).1

/-- The backend state after a sequence of calls. -/
def SDCardBackend.run (st : SDCardBackend) (ops : List SDOp) : SDCardBackend :=
  ops.foldl SDCardBackend.step st

/-- A freshly constructed cached SD backend: `SDCardBackend(filename, cap)`
(not yet initialized, clean, empty cache). -/
def SDCardBackend.mk0 (cap : Nat) : SDCardBackend :=
  { capacity := cap, initialized := false, dirty := false,
    cache := fun _ => 0, cacheLen := 0 }

namespace Direct

/-- State of the direct (persistent-file-handle) `SDCardBackend` variant
(UsbMidi.hpp, second part): the `file_` handle's current content (`none`
models a closed/invalid handle) plus the initialized flag. -/
structure SDCardBackend where
  capacity : Nat
  initialized : Bool
  file : Option (List Nat)

/-- Direct `SDCardBackend::available`: consults live `SD.mediaPresent()`. -/
def SDCardBackend.available (st : SDCardBackend) (mediaPresent : Bool) : Bool :=
  st.initialized && mediaPresent

/-- Direct `SDCardBackend::read`: guard on handle validity and capacity;
a read entirely at or past the end of the file is answered with `0xFF`
without seeking; otherwise seek, read, and `0xFF`-pad the short tail. -/
def SDCardBackend.read (st : SDCardBackend) (address size : Nat) :
    SDCardBackend × Nat × List Nat :=
  match st.file with
  | none => (st, 0, [])
  | some c =>
    if address + size > st.capacity then (st, 0, [])
    else if address ≥ c.length then (st, size, List.replicate size 255)
    else (st, size, fileReadFrom c address size)

end Direct

/-! ### Helper lemmas about the byte-list operations -/

lemma writeFront_length (existing : List Nat) (address : Nat)
    (junk : Nat → Nat) : (writeFront existing address junk).length = address := by
  unfold writeFront
  split
  · simp
  · split
    · simp
    · simp only [List.length_nil]
      omega

lemma fileReadFrom_length (c : List Nat) (address size : Nat) :
    (fileReadFrom c address size).length = size := by
  simp only [fileReadFrom, List.length_append, List.length_take,
    List.length_drop, List.length_replicate]
  omega

/-- The seek/read/pad shape produces, at offset `i`, the file byte at
`address + i` when the file reaches it and `0xFF` otherwise. -/
lemma fileReadFrom_eq_ofFn (c : List Nat) (address size : Nat) :
    fileReadFrom c address size =
      List.ofFn (fun i : Fin size =>
        if address + i.val < c.length then c.getD (address + i.val) 0 else 255) := by
  apply List.ext_getElem
  · rw [fileReadFrom_length, List.length_ofFn]
  · intro i h1 h2
    rw [List.length_ofFn] at h2
    rw [List.getElem_ofFn]
    simp only [fileReadFrom]
    by_cases hc : i < ((c.drop address).take size).length
    · rw [List.getElem_append_left hc, List.getElem_take, List.getElem_drop]
      have hlen : i < min size (c.length - address) := by
        simpa [List.length_take, List.length_drop] using hc
      have hin : address + i < c.length := by omega
      rw [if_pos hin, List.getD_eq_getElem c 0 hin]
    · rw [List.getElem_append_right (Nat.le_of_not_lt hc), List.getElem_replicate]
      have hlen : ¬i < min size (c.length - address) := by
        simpa [List.length_take, List.length_drop] using hc
      have hout : ¬address + i < c.length := by omega
      rw [if_neg hout]

lemma fileReadFrom_front (front v : List Nat) (address : Nat)
    (hf : front.length = address) :
    fileReadFrom (front ++ v) address v.length = v := by
  subst hf
  simp [fileReadFrom, List.drop_left, List.take_length]

/-- `LittleFSBackend.write` under a passing guard. -/
lemma LittleFSBackend.write_eq (st : LittleFSBackend) (address : Nat)
    (buffer : List Nat) (junk : Nat → Nat) (hi : st.initialized = true)
    (hc : address + buffer.length ≤ st.capacity) :
    st.write address buffer junk =
      ({ st with
          file := some (writeFront (st.file.getD []) address junk ++ buffer) },
       buffer.length) := by
  simp only [LittleFSBackend.write]
  rw [if_neg (by simp [hi]; omega)]

/-- C1: for every backend (immediate-write EEPROM, filesystem-backed
LittleFS, cached SD card) that has been successfully initialized, and for
every address `a` and byte sequence `data` with `a + data.length ≤
capacity()`, a successful `write(a, data, n)` followed immediately by
`read(a, buf, n)` fills the caller's buffer with exactly `data` (and the
write indeed succeeds, reporting `data.length` bytes written). -/
theorem claim_C1 (e : EEPROMBackend) (l : LittleFSBackend) (s : SDCardBackend)
    (a : Nat) (data : List Nat) (junk : Nat → Nat)
    (hE : a + data.length ≤ 4096)
    (hLi : l.initialized = true) (hL : a + data.length ≤ l.capacity)
    (hSi : s.initialized = true) (hS : a + data.length ≤ s.capacity) :
    ((e.write a data).2 = data.length ∧
      (((e.write a data).1).read a data.length).2.2 = data) ∧
    ((l.write a data junk).2 = data.length ∧
      (((l.write a data junk).1).read a data.length).2.2 = data) ∧
    ((s.write a data).2 = data.length ∧
      (((s.write a data).1).read a data.length).2.2 = data) := by
  refine ⟨⟨?_, ?_⟩, ⟨?_, ?_⟩, ⟨?_, ?_⟩⟩
  · simp only [EEPROMBackend.write, EEPROMBackend.capacity]
    rw [if_neg (by omega)]
  · simp only [EEPROMBackend.write, EEPROMBackend.capacity]
    rw [if_neg (by omega)]
    simp only [EEPROMBackend.read, EEPROMBackend.capacity]
    rw [if_neg (by omega)]
    apply List.ext_getElem
    · simp
    · intro i h1 h2
      rw [List.getElem_ofFn]
      simp only []
      rw [if_pos ⟨Nat.le_add_right a i, by omega⟩]
      have hia : a + i - a = i := by omega
      rw [hia, List.getD_eq_getElem data 0 h2]
  · rw [LittleFSBackend.write_eq l a data junk hLi hL]
  · rw [LittleFSBackend.write_eq l a data junk hLi hL]
    simp only [LittleFSBackend.read]
    rw [if_neg (by simp [hLi]; omega)]
    simp only []
    exact fileReadFrom_front _ data a (writeFront_length _ a junk)
  · simp only [SDCardBackend.write]
    rw [if_neg (by simp [hSi]; omega)]
  · simp only [SDCardBackend.write]
    rw [if_neg (by simp [hSi]; omega)]
    simp only [SDCardBackend.read]
    rw [if_neg (by simp [hSi]; omega)]
    rw [if_pos (by simp)]
    apply List.ext_getElem
    · simp
    · intro i h1 h2
      rw [List.getElem_ofFn]
      simp only []
      rw [if_pos ⟨Nat.le_add_right a i, by omega⟩]
      have hia : a + i - a = i := by omega
      rw [hia, List.getD_eq_getElem data 0 h2]

/-- Witness for C1: concrete round trip on all three backends
(address 2, data `[0xAA, 0xBB]`, a one-byte pre-existing LittleFS file,
arbitrary heap junk 7). -/
theorem claim_C1_witness :
    (2 + ([170, 187] : List Nat).length ≤ 4096 ∧
     (⟨4096, true, some [17]⟩ : LittleFSBackend).initialized = true ∧
     2 + ([170, 187] : List Nat).length ≤
       (⟨4096, true, some [17]⟩ : LittleFSBackend).capacity ∧
     (⟨4096, true, false, fun _ => 0, 0⟩ : SDCardBackend).initialized = true ∧
     2 + ([170, 187] : List Nat).length ≤
       (⟨4096, true, false, fun _ => 0, 0⟩ : SDCardBackend).capacity) ∧
    (((⟨fun _ => 0⟩ : EEPROMBackend).write 2 [170, 187]).2 =
        ([170, 187] : List Nat).length ∧
      ((((⟨fun _ => 0⟩ : EEPROMBackend).write 2 [170, 187]).1).read 2
          ([170, 187] : List Nat).length).2.2 = [170, 187]) ∧
    (((⟨4096, true, some [17]⟩ : LittleFSBackend).write 2 [170, 187]
        (fun _ => 7)).2 = ([170, 187] : List Nat).length ∧
      ((((⟨4096, true, some [17]⟩ : LittleFSBackend).write 2 [170, 187]
          (fun _ => 7)).1).read 2 ([170, 187] : List Nat).length).2.2 =
        [170, 187]) ∧
    (((⟨4096, true, false, fun _ => 0, 0⟩ : SDCardBackend).write 2
        [170, 187]).2 = ([170, 187] : List Nat).length ∧
      ((((⟨4096, true, false, fun _ => 0, 0⟩ : SDCardBackend).write 2
          [170, 187]).1).read 2 ([170, 187] : List Nat).length).2.2 =
        [170, 187]) :=
  ⟨⟨by decide, rfl, by decide, rfl, by decide⟩,
   claim_C1 ⟨fun _ => 0⟩ ⟨4096, true, some [17]⟩
     ⟨4096, true, false, fun _ => 0, 0⟩ 2 [170, 187] (fun _ => 7)
     (by decide) rfl (by decide) rfl (by decide)⟩

/-- Counterexample to C2 as stated: on the filesystem-backed backend,
`erase(5000, 0)` has `address + size > capacity` yet returns `true`
(its result is `write-result == size` and the rejected write reports `0`),
not `false` as the claim requires. -/
theorem claim_C2_counterexample :
    ((⟨4096, true, none⟩ : LittleFSBackend).erase 5000 0 (fun _ => 0)).2 =
      true ∧
    5000 + 0 > (⟨4096, true, none⟩ : LittleFSBackend).capacity := by
  constructor
  · rfl
  · decide

/-- C2 (amended): for every backend, a `read`/`write`/`erase` call with
`address + size > capacity()` is rejected before touching any medium:
`read` and `write` return 0, `erase` returns `false` — except the
filesystem-backed backend's `erase`, which returns `write-result == size`
and therefore `true` when `size = 0` and the backend is initialized — and
in every case no persisted or cached state is mutated (the returned state
is exactly the pre-call state, so any subsequent read observes the same
content as before the rejected call). -/
theorem claim_C2 (e : EEPROMBackend) (l : LittleFSBackend) (s : SDCardBackend)
    (a n : Nat) (data : List Nat) (junk : Nat → Nat)
    (hd : data.length = n)
    (hE : a + n > 4096) (hL : a + n > l.capacity) (hS : a + n > s.capacity) :
    (e.read a n = (e, 0, []) ∧ e.write a data = (e, 0) ∧
      e.erase a n = (e, false)) ∧
    (l.read a n = (l, 0, []) ∧ l.write a data junk = (l, 0) ∧
      (l.erase a n junk).1 = l ∧
      (l.erase a n junk).2 = (l.initialized && (0 == n))) ∧
    (s.read a n = (s, 0, []) ∧ s.write a data = (s, 0) ∧
      s.erase a n = (s, false)) := by
  subst hd
  refine ⟨⟨?_, ?_, ?_⟩, ⟨?_, ?_, ?_, ?_⟩, ⟨?_, ?_, ?_⟩⟩
  · simp only [EEPROMBackend.read, EEPROMBackend.capacity]
    rw [if_pos (by omega)]
  · simp only [EEPROMBackend.write, EEPROMBackend.capacity]
    rw [if_pos (by omega)]
  · simp only [EEPROMBackend.erase, EEPROMBackend.capacity]
    rw [if_pos (by omega)]
  · simp only [LittleFSBackend.read]
    rw [if_pos (Or.inr (by omega))]
  · simp only [LittleFSBackend.write]
    rw [if_pos (Or.inr (by omega))]
  · by_cases hinit : l.initialized = true
    · simp only [LittleFSBackend.erase, LittleFSBackend.write]
      rw [if_neg (by simp [hinit])]
      rw [if_pos (Or.inr (by simp; omega))]
    · simp only [LittleFSBackend.erase]
      rw [if_pos (by simp [hinit])]
  · by_cases hinit : l.initialized = true
    · simp only [LittleFSBackend.erase, LittleFSBackend.write]
      rw [if_neg (by simp [hinit])]
      rw [if_pos (Or.inr (by simp; omega))]
      simp [hinit]
    · simp only [LittleFSBackend.erase]
      rw [if_pos (by simp [hinit])]
      simp [hinit]
  · simp only [SDCardBackend.read]
    rw [if_pos (Or.inr (by omega))]
  · simp only [SDCardBackend.write]
    rw [if_pos (Or.inr (by omega))]
  · simp only [SDCardBackend.erase]
    rw [if_pos (Or.inr (by omega))]

/-- Witness for C2: all three backends at an out-of-capacity call
(address 5000, size 2) reject without state change. -/
theorem claim_C2_witness :
    (([9, 9] : List Nat).length = 2 ∧ 5000 + 2 > 4096 ∧
     5000 + 2 > (⟨4096, true, some [1]⟩ : LittleFSBackend).capacity ∧
     5000 + 2 > (⟨4096, true, false, fun _ => 0, 0⟩ : SDCardBackend).capacity) ∧
    ((⟨fun _ => 3⟩ : EEPROMBackend).read 5000 2 = (⟨fun _ => 3⟩, 0, []) ∧
      (⟨fun _ => 3⟩ : EEPROMBackend).write 5000 [9, 9] = (⟨fun _ => 3⟩, 0) ∧
      (⟨fun _ => 3⟩ : EEPROMBackend).erase 5000 2 = (⟨fun _ => 3⟩, false)) ∧
    ((⟨4096, true, some [1]⟩ : LittleFSBackend).read 5000 2 =
        (⟨4096, true, some [1]⟩, 0, []) ∧
      (⟨4096, true, some [1]⟩ : LittleFSBackend).write 5000 [9, 9]
          (fun _ => 0) = (⟨4096, true, some [1]⟩, 0) ∧
      ((⟨4096, true, some [1]⟩ : LittleFSBackend).erase 5000 2
          (fun _ => 0)).1 = ⟨4096, true, some [1]⟩ ∧
      ((⟨4096, true, some [1]⟩ : LittleFSBackend).erase 5000 2
          (fun _ => 0)).2 =
        ((⟨4096, true, some [1]⟩ : LittleFSBackend).initialized && (0 == 2))) ∧
    ((⟨4096, true, false, fun _ => 0, 0⟩ : SDCardBackend).read 5000 2 =
        (⟨4096, true, false, fun _ => 0, 0⟩, 0, []) ∧
      (⟨4096, true, false, fun _ => 0, 0⟩ : SDCardBackend).write 5000 [9, 9] =
        (⟨4096, true, false, fun _ => 0, 0⟩, 0) ∧
      (⟨4096, true, false, fun _ => 0, 0⟩ : SDCardBackend).erase 5000 2 =
        (⟨4096, true, false, fun _ => 0, 0⟩, false)) :=
  ⟨⟨rfl, by decide, by decide, by decide⟩,
   claim_C2 ⟨fun _ => 3⟩ ⟨4096, true, some [1]⟩
     ⟨4096, true, false, fun _ => 0, 0⟩ 5000 2 [9, 9] (fun _ => 0)
     rfl (by decide) (by decide) (by decide)⟩

lemma replicate_eq_ofFn_out (c : List Nat) (address size : Nat)
    (h : c.length ≤ address) :
    List.replicate size 255 =
      List.ofFn (fun i : Fin size =>
        if address + i.val < c.length then c.getD (address + i.val) 0
        else 255) := by
  apply List.ext_getElem
  · simp
  · intro i h1 h2
    rw [List.getElem_replicate, List.getElem_ofFn]
    rw [if_neg (by omega)]

lemma readGuard_of_not (b : Bool) (a n cap : Nat)
    (h : ¬(b = true ∧ a + n ≤ cap)) : ¬b = true ∨ a + n > cap := by
  by_cases hb : b = true
  · refine Or.inr ?_
    by_contra hc
    push_neg at hc
    exact h ⟨hb, by omega⟩
  · exact Or.inl hb

/-- The cached SD read, under a passing guard, returns the cache bytes where
the cache reaches and `0xFF` beyond, whichever of its three memcpy/memset
branches runs. -/
lemma sdRead_buffer (s : SDCardBackend) (a n : Nat)
    (hi : s.initialized = true) (hc : a + n ≤ s.capacity) :
    (s.read a n).2.2 =
      List.ofFn (fun i : Fin n =>
        if a + i.val < s.cacheLen then s.cache (a + i.val) else 255) := by
  simp only [SDCardBackend.read]
  rw [if_neg (by simp [hi]; omega)]
  by_cases h1 : a + n ≤ s.cacheLen
  · rw [if_pos h1]
    apply List.ext_getElem
    · simp
    · intro i hh1 hh2
      rw [List.length_ofFn] at hh1
      rw [List.getElem_ofFn, List.getElem_ofFn]
      have hin : a + i < s.cacheLen := by omega
      simp [hin]
  · rw [if_neg h1]
    by_cases h2 : a < s.cacheLen
    · rw [if_pos h2]
      apply List.ext_getElem
      · simp
        omega
      · intro i hh1 hh2
        rw [List.length_ofFn] at hh2
        rw [List.getElem_ofFn]
        by_cases h3 : i < s.cacheLen - a
        · rw [List.getElem_append_left (by simpa using h3)]
          rw [List.getElem_ofFn]
          have hin : a + i < s.cacheLen := by omega
          simp [hin]
        · rw [List.getElem_append_right (by simpa using Nat.le_of_not_lt h3)]
          rw [List.getElem_replicate]
          have hout : ¬a + i < s.cacheLen := by omega
          simp [hout]
    · rw [if_neg h2]
      apply List.ext_getElem
      · simp
      · intro i hh1 hh2
        rw [List.getElem_replicate, List.getElem_ofFn]
        have hout : ¬a + i < s.cacheLen := by omega
        simp [hout]

/-- C3 (amended): for every backend, `read(address, buffer, size)` with the
backend initialized (handle open, for the direct SD variant) and
`address + size ≤ capacity()` returns `size` — hence a nonzero count
whenever `size > 0` — and fills the buffer with the persisted/cached byte at
each position the content reaches and `0xFF` at every position beyond it;
the returned count is `0` exactly when `address + size` exceeds the
capacity, the backend is not initialized, or `size = 0`.  In particular the
filesystem-backed backend's read at or beyond the end of an existing
backing file, within capacity, succeeds with all bytes `0xFF`. -/
theorem claim_C3 (e : EEPROMBackend) (l : LittleFSBackend)
    (s : SDCardBackend) (d : Direct.SDCardBackend) (a n : Nat)
    (l2 : LittleFSBackend) (c2 : List Nat) (a2 n2 : Nat)
    (h2i : l2.initialized = true) (h2f : l2.file = some c2)
    (h2a : c2.length ≤ a2) (h2c : a2 + n2 ≤ l2.capacity) :
    ((e.read a n).2.1 = if a + n ≤ 4096 then n else 0) ∧
    ((l.read a n).2.1 =
      if l.initialized = true ∧ a + n ≤ l.capacity then n else 0) ∧
    ((s.read a n).2.1 =
      if s.initialized = true ∧ a + n ≤ s.capacity then n else 0) ∧
    ((d.read a n).2.1 =
      if d.file.isSome = true ∧ a + n ≤ d.capacity then n else 0) ∧
    ((e.read a n).2.2 = if a + n ≤ 4096 then
        List.ofFn (fun i : Fin n => e.rom (a + i.val)) else []) ∧
    ((l.read a n).2.2 = if l.initialized = true ∧ a + n ≤ l.capacity then
        List.ofFn (fun i : Fin n =>
          if a + i.val < (l.file.getD []).length then
            (l.file.getD []).getD (a + i.val) 0
          else 255)
      else []) ∧
    ((s.read a n).2.2 = if s.initialized = true ∧ a + n ≤ s.capacity then
        List.ofFn (fun i : Fin n =>
          if a + i.val < s.cacheLen then s.cache (a + i.val) else 255)
      else []) ∧
    ((d.read a n).2.2 = if d.file.isSome = true ∧ a + n ≤ d.capacity then
        List.ofFn (fun i : Fin n =>
          if a + i.val < (d.file.getD []).length then
            (d.file.getD []).getD (a + i.val) 0
          else 255)
      else []) ∧
    (((e.read a n).2.1 = 0) ↔ (a + n > 4096 ∨ n = 0)) ∧
    (((l.read a n).2.1 = 0) ↔
      (¬l.initialized = true ∨ a + n > l.capacity ∨ n = 0)) ∧
    (((s.read a n).2.1 = 0) ↔
      (¬s.initialized = true ∨ a + n > s.capacity ∨ n = 0)) ∧
    (((d.read a n).2.1 = 0) ↔
      (¬d.file.isSome = true ∨ a + n > d.capacity ∨ n = 0)) ∧
    ((l2.read a2 n2).2.1 = n2) ∧
    ((l2.read a2 n2).2.2 = List.replicate n2 255) := by
  have eCount : (e.read a n).2.1 = if a + n ≤ 4096 then n else 0 := by
    simp only [EEPROMBackend.read, EEPROMBackend.capacity]
    by_cases h : a + n ≤ 4096
    · rw [if_neg (by omega), if_pos h]
    · rw [if_pos (by omega), if_neg h]
  have lCount : (l.read a n).2.1 =
      if l.initialized = true ∧ a + n ≤ l.capacity then n else 0 := by
    simp only [LittleFSBackend.read]
    by_cases h : l.initialized = true ∧ a + n ≤ l.capacity
    · rw [if_neg (by simp [h.1]; omega), if_pos h]
      cases l.file <;> rfl
    · rw [if_pos (readGuard_of_not _ a n _ h), if_neg h]
  have sCount : (s.read a n).2.1 =
      if s.initialized = true ∧ a + n ≤ s.capacity then n else 0 := by
    simp only [SDCardBackend.read]
    by_cases h : s.initialized = true ∧ a + n ≤ s.capacity
    · rw [if_neg (by simp [h.1]; omega), if_pos h]
      by_cases h1 : a + n ≤ s.cacheLen
      · rw [if_pos h1]
      · rw [if_neg h1]
        by_cases h2 : a < s.cacheLen
        · rw [if_pos h2]
        · rw [if_neg h2]
    · rw [if_pos (readGuard_of_not _ a n _ h), if_neg h]
  have dCount : (d.read a n).2.1 =
      if d.file.isSome = true ∧ a + n ≤ d.capacity then n else 0 := by
    cases hf : d.file with
    | none => simp [Direct.SDCardBackend.read, hf]
    | some c =>
      simp only [Direct.SDCardBackend.read, hf]
      by_cases h : a + n ≤ d.capacity
      · rw [if_neg (by omega)]
        by_cases h2 : a ≥ c.length
        · rw [if_pos h2]
          simp [h]
        · rw [if_neg h2]
          simp [h]
      · rw [if_pos (by omega)]
        simp [h]
  refine ⟨eCount, lCount, sCount, dCount, ?_, ?_, ?_, ?_, ?_, ?_, ?_, ?_, ?_, ?_⟩
  · simp only [EEPROMBackend.read, EEPROMBackend.capacity]
    by_cases h : a + n ≤ 4096
    · rw [if_neg (by omega), if_pos h]
    · rw [if_pos (by omega), if_neg h]
  · by_cases h : l.initialized = true ∧ a + n ≤ l.capacity
    · rw [if_pos h]
      simp only [LittleFSBackend.read]
      rw [if_neg (by simp [h.1]; omega)]
      cases hf : l.file with
      | none => simpa [hf] using replicate_eq_ofFn_out [] a n (Nat.zero_le a)
      | some c => simpa [hf] using fileReadFrom_eq_ofFn c a n
    · rw [if_neg h]
      simp only [LittleFSBackend.read]
      rw [if_pos (readGuard_of_not _ a n _ h)]
  · by_cases h : s.initialized = true ∧ a + n ≤ s.capacity
    · rw [if_pos h]
      exact sdRead_buffer s a n h.1 h.2
    · rw [if_neg h]
      simp only [SDCardBackend.read]
      rw [if_pos (readGuard_of_not _ a n _ h)]
  · cases hf : d.file with
    | none => simp [Direct.SDCardBackend.read, hf]
    | some c =>
      simp only [Direct.SDCardBackend.read, hf]
      by_cases h : a + n ≤ d.capacity
      · rw [if_neg (by omega)]
        by_cases h2 : a ≥ c.length
        · rw [if_pos h2]
          rw [if_pos (show (some c).isSome = true ∧ a + n ≤ d.capacity from ⟨rfl, h⟩)]
          simpa using replicate_eq_ofFn_out c a n (by omega)
        · rw [if_neg h2]
          rw [if_pos (show (some c).isSome = true ∧ a + n ≤ d.capacity from ⟨rfl, h⟩)]
          simpa using fileReadFrom_eq_ofFn c a n
      · rw [if_pos (by omega)]
        rw [if_neg (by simp [h])]
  · rw [eCount]
    by_cases h : a + n ≤ 4096
    · rw [if_pos h]
      omega
    · rw [if_neg h]
      omega
  · rw [lCount]
    by_cases hi : l.initialized = true
    · by_cases hc2 : a + n ≤ l.capacity
      · rw [if_pos ⟨hi, hc2⟩]
        simp [hi]
        omega
      · rw [if_neg (fun hq => hc2 hq.2)]
        simp [hi]
        omega
    · rw [if_neg (fun hq => hi hq.1)]
      simp [hi]
  · rw [sCount]
    by_cases hi : s.initialized = true
    · by_cases hc2 : a + n ≤ s.capacity
      · rw [if_pos ⟨hi, hc2⟩]
        simp [hi]
        omega
      · rw [if_neg (fun hq => hc2 hq.2)]
        simp [hi]
        omega
    · rw [if_neg (fun hq => hi hq.1)]
      simp [hi]
  · rw [dCount]
    by_cases hi : d.file.isSome = true
    · by_cases hc2 : a + n ≤ d.capacity
      · rw [if_pos ⟨hi, hc2⟩]
        simp [hi]
        omega
      · rw [if_neg (fun hq => hc2 hq.2)]
        simp [hi]
        omega
    · rw [if_neg (fun hq => hi hq.1)]
      simp [hi]
  · simp only [LittleFSBackend.read, h2f]
    rw [if_neg (by simp [h2i]; omega)]
  · simp only [LittleFSBackend.read, h2f]
    rw [if_neg (by simp [h2i]; omega)]
    simp only [fileReadFrom]
    rw [List.drop_eq_nil_of_le h2a]
    simp

/-- Counterexample to C3 as stated: an initialized, in-capacity read of
size 0 returns count 0, although the claim says a read returns 0 exactly
when the capacity is exceeded or the backend is uninitialized (and that an
in-range read on an initialized backend returns a nonzero count). -/
theorem claim_C3_counterexample :
    ((⟨4096, true, none⟩ : LittleFSBackend).read 0 0).2.1 = 0 ∧
    (⟨4096, true, none⟩ : LittleFSBackend).initialized = true ∧
    0 + 0 ≤ (⟨4096, true, none⟩ : LittleFSBackend).capacity := by
  refine ⟨rfl, rfl, by decide⟩

/-- Witness for C3: beyond-end-of-file read on a 1-byte LittleFS file. -/
theorem claim_C3_witness :
    ((⟨4096, true, some [17]⟩ : LittleFSBackend).initialized = true ∧
     (⟨4096, true, some [17]⟩ : LittleFSBackend).file = some [17] ∧
     ([17] : List Nat).length ≤ 9 ∧
     9 + 3 ≤ (⟨4096, true, some [17]⟩ : LittleFSBackend).capacity) ∧
    ((⟨4096, true, some [17]⟩ : LittleFSBackend).read 9 3).2.1 = 3 ∧
    ((⟨4096, true, some [17]⟩ : LittleFSBackend).read 9 3).2.2 =
      List.replicate 3 255 :=
  ⟨⟨rfl, rfl, by decide, by decide⟩,
   (claim_C3 ⟨fun _ => 0⟩ ⟨4096, true, none⟩
      ⟨4096, true, false, fun _ => 0, 0⟩ ⟨4096, true, none⟩ 0 0
      ⟨4096, true, some [17]⟩ [17] 9 3 rfl rfl (by decide)
      (by decide)).2.2.2.2.2.2.2.2.2.2.2.2⟩

/-- C4: cached removable-media backend: the dirty flag is set by every
successful write or erase; `commit` when not dirty is a no-op returning
`true` that touches neither the backend nor the card; a commit whose
physical write does not transfer the full cache length (or whose file open
fails) returns `false` and leaves the dirty flag set so a later commit
retries; a successful commit rewrites the file from the full cache content,
truncated to exactly the cache length, clears the dirty flag and returns
`true`. -/
theorem claim_C4 (sW : SDCardBackend) (aW : Nat) (dataW : List Nat)
    (sE : SDCardBackend) (aE nE : Nat)
    (sC : SDCardBackend) (sdC : SDEnv) (okC : Bool) (tC : Nat)
    (sF : SDCardBackend) (sdF : SDEnv) (tF : Nat)
    (sS : SDCardBackend) (sdS : SDEnv) (tS : Nat)
    (hWi : sW.initialized = true) (hWc : aW + dataW.length ≤ sW.capacity)
    (hEi : sE.initialized = true) (hEc : aE + nE ≤ sE.capacity)
    (hCd : sC.dirty = false)
    (hFd : sF.dirty = true) (hFi : sF.initialized = true)
    (hFt : tF ≠ sF.cacheLen)
    (hSd : sS.dirty = true) (hSi : sS.initialized = true)
    (hSt : tS = sS.cacheLen) :
    ((sW.write aW dataW).1.dirty = true) ∧
    ((sE.erase aE nE).1.dirty = true) ∧
    (sC.commit sdC okC tC = (sC, sdC, true)) ∧
    ((sF.commit sdF true tF).2.2 = false ∧
      (sF.commit sdF true tF).1.dirty = true) ∧
    (sF.commit sdF false tF = (sF, sdF, false)) ∧
    ((sS.commit sdS true tS).2.2 = true ∧
      (sS.commit sdS true tS).1.dirty = false ∧
      (sS.commit sdS true tS).2.1.file =
        some (List.ofFn (fun i : Fin sS.cacheLen => sS.cache i.val))) := by
  refine ⟨?_, ?_, ?_, ?_, ?_, ?_⟩
  · simp only [SDCardBackend.write]
    rw [if_neg (by simp [hWi]; omega)]
  · simp only [SDCardBackend.erase]
    rw [if_neg (by simp [hEi]; omega)]
  · simp only [SDCardBackend.commit]
    rw [if_pos (Or.inl (by simp [hCd]))]
  · simp only [SDCardBackend.commit]
    rw [if_neg (by simp [hFd, hFi])]
    rw [if_neg (by simp)]
    rw [if_neg (by simp [hFt])]
    exact ⟨rfl, hFd⟩
  · simp only [SDCardBackend.commit]
    rw [if_neg (by simp [hFd, hFi])]
    rw [if_pos (by simp)]
  · subst hSt
    simp only [SDCardBackend.commit]
    rw [if_neg (by simp [hSd, hSi])]
    rw [if_neg (by simp)]
    rw [if_pos (by simp)]
    exact ⟨rfl, rfl, rfl⟩

/-- Witness for C4 at a concrete dirty state (cache `[7, 8]`, length 2). -/
theorem claim_C4_witness :
    ((⟨4096, true, false, fun _ => 0, 0⟩ : SDCardBackend).initialized = true ∧
     0 + ([7, 8] : List Nat).length ≤
       (⟨4096, true, false, fun _ => 0, 0⟩ : SDCardBackend).capacity ∧
     (⟨4096, true, true, fun _ => 7, 2⟩ : SDCardBackend).dirty = true ∧
     (⟨4096, true, true, fun _ => 7, 2⟩ : SDCardBackend).initialized = true ∧
     (1 : Nat) ≠ (⟨4096, true, true, fun _ => 7, 2⟩ : SDCardBackend).cacheLen ∧
     (2 : Nat) = (⟨4096, true, true, fun _ => 7, 2⟩ : SDCardBackend).cacheLen ∧
     (⟨4096, false, false, fun _ => 0, 0⟩ : SDCardBackend).dirty = false) ∧
    (((⟨4096, true, false, fun _ => 0, 0⟩ : SDCardBackend).write 0
        [7, 8]).1.dirty = true) ∧
    (((⟨4096, true, false, fun _ => 0, 0⟩ : SDCardBackend).erase 0 2).1.dirty =
      true) ∧
    ((⟨4096, false, false, fun _ => 0, 0⟩ : SDCardBackend).commit
        ⟨true, none⟩ true 0 =
      (⟨4096, false, false, fun _ => 0, 0⟩, ⟨true, none⟩, true)) ∧
    (((⟨4096, true, true, fun _ => 7, 2⟩ : SDCardBackend).commit
        ⟨true, none⟩ true 1).2.2 = false ∧
      ((⟨4096, true, true, fun _ => 7, 2⟩ : SDCardBackend).commit
        ⟨true, none⟩ true 1).1.dirty = true) ∧
    ((⟨4096, true, true, fun _ => 7, 2⟩ : SDCardBackend).commit
        ⟨true, none⟩ false 1 =
      (⟨4096, true, true, fun _ => 7, 2⟩, ⟨true, none⟩, false)) ∧
    (((⟨4096, true, true, fun _ => 7, 2⟩ : SDCardBackend).commit
        ⟨true, none⟩ true 2).2.2 = true ∧
      ((⟨4096, true, true, fun _ => 7, 2⟩ : SDCardBackend).commit
        ⟨true, none⟩ true 2).1.dirty = false ∧
      ((⟨4096, true, true, fun _ => 7, 2⟩ : SDCardBackend).commit
        ⟨true, none⟩ true 2).2.1.file =
        some (List.ofFn (fun i : Fin
          (⟨4096, true, true, fun _ => 7, 2⟩ : SDCardBackend).cacheLen =>
          (⟨4096, true, true, fun _ => 7, 2⟩ : SDCardBackend).cache i.val))) :=
  ⟨⟨rfl, by decide, rfl, rfl, by decide, by decide, rfl⟩,
   claim_C4 ⟨4096, true, false, fun _ => 0, 0⟩ 0 [7, 8]
     ⟨4096, true, false, fun _ => 0, 0⟩ 0 2
     ⟨4096, false, false, fun _ => 0, 0⟩ ⟨true, none⟩ true 0
     ⟨4096, true, true, fun _ => 7, 2⟩ ⟨true, none⟩ 1
     ⟨4096, true, true, fun _ => 7, 2⟩ ⟨true, none⟩ 2
     rfl (by decide) rfl (by decide) rfl rfl rfl (by decide) rfl rfl
     (by decide)⟩

/-- Counterexample to C5 as stated: the cached SD backend's `available`
returns `true` for an initialized backend even when the medium is not
present (`SD.mediaPresent()` false), i.e. it reflects only the historical
`begin()` success, while the claim requires live media presence for the
removable-media backends. -/
theorem claim_C5_counterexample :
    (⟨4096, true, false, fun _ => 0, 0⟩ : SDCardBackend).available false =
      true ∧
    ((⟨4096, true, false, fun _ => 0, 0⟩ : SDCardBackend).initialized &&
      false) = false := by
  exact ⟨rfl, rfl⟩

/-- C5 (amended): `available()` is `true` iff the backend is initialized
and — only for the direct file-handle SD variant — the medium is live at
the time of the call; the cached SD backend's `available` reflects only the
initialized flag (historical `begin()` success), the EEPROM backend is
always available, and the LittleFS backend reflects its initialized flag. -/
theorem claim_C5 (e : EEPROMBackend) (l : LittleFSBackend) (s : SDCardBackend)
    (d : Direct.SDCardBackend) (present : Bool) :
    e.available = true ∧
    l.available = l.initialized ∧
    s.available present = s.initialized ∧
    d.available present = (d.initialized && present) :=
  ⟨rfl, rfl, rfl, rfl⟩

/-- C6: code bug in `LittleFSBackend::write` — when the existing file is
nonempty but shorter than the write address, the gap bytes between the old
end-of-file and the address are emitted from the uninitialized tail of the
`temp` heap allocation (only `min(existingSize, address)` bytes of it were
filled by `file.read`), not `0xFF` padding: with existing file `[0x11]` and
`write(2, [0xAA], 1)` the persisted byte at position 1 equals whatever the
allocator left there (0 here, 0xFF under a different allocation history),
where the claim and the spec require `0xFF`. -/
theorem claim_C6 :
    ((⟨4096, true, some [17]⟩ : LittleFSBackend).write 2 [170]
        (fun _ => 0)).1.file = some [17, 0, 170] ∧
    ((⟨4096, true, some [17]⟩ : LittleFSBackend).write 2 [170]
        (fun _ => 255)).1.file = some [17, 255, 170] ∧
    (0 : Nat) ≠ 255 := by
  refine ⟨by decide, by decide, by decide⟩

/-- C7: for every backend, `begin()` is idempotent: once a first `begin()`
has returned `true` the backend is initialized, and every `begin()` on an
initialized backend returns `true` with a completely unchanged state (no
re-mount, no cache reload, dirty flag and cache untouched); the EEPROM
backend's `begin` is unconditionally a stateless success. -/
theorem claim_C7 (e : EEPROMBackend)
    (l : LittleFSBackend) (mOk : Bool)
    (s : SDCardBackend) (sd : SDEnv) (bOk : Bool)
    (l2 : LittleFSBackend) (mOk2 : Bool)
    (s2 : SDCardBackend) (sd2 : SDEnv) (bOk2 : Bool)
    (hLi : l.initialized = true) (hSi : s.initialized = true)
    (hL2 : (l2.begin mOk2).2 = true) (hS2 : (s2.begin sd2 bOk2).2 = true) :
    (e.begin = (e, true)) ∧
    (l.begin mOk = (l, true)) ∧
    (s.begin sd bOk = (s, true)) ∧
    ((l2.begin mOk2).1.initialized = true) ∧
    ((s2.begin sd2 bOk2).1.initialized = true) := by
  refine ⟨rfl, ?_, ?_, ?_, ?_⟩
  · simp only [LittleFSBackend.begin]
    rw [if_pos hLi]
  · simp only [SDCardBackend.begin]
    rw [if_pos hSi]
  · by_cases hi : l2.initialized = true
    · simp only [LittleFSBackend.begin]
      rw [if_pos hi]
      exact hi
    · simp only [LittleFSBackend.begin] at hL2 ⊢
      rw [if_neg hi] at hL2 ⊢
      by_cases hm : mOk2 = true
      · rw [if_neg (by simp [hm])] at hL2 ⊢
      · rw [if_pos (by simp [hm])] at hL2
        simp at hL2
  · by_cases hi : s2.initialized = true
    · simp only [SDCardBackend.begin]
      rw [if_pos hi]
      exact hi
    · simp only [SDCardBackend.begin] at hS2 ⊢
      rw [if_neg hi] at hS2 ⊢
      by_cases hm : bOk2 = true
      · rw [if_neg (by simp [hm])] at hS2 ⊢
        cases sd2.file <;> rfl
      · rw [if_pos (by simp [hm])] at hS2
        simp at hS2

/-- Witness for C7: repeated `begin` on initialized backends, and a first
successful `begin` marking the backend initialized. -/
theorem claim_C7_witness :
    ((⟨4096, true, none⟩ : LittleFSBackend).initialized = true ∧
     (⟨4096, true, false, fun _ => 0, 0⟩ : SDCardBackend).initialized = true ∧
     ((⟨4096, false, none⟩ : LittleFSBackend).begin true).2 = true ∧
     ((⟨4096, false, false, fun _ => 0, 0⟩ : SDCardBackend).begin
        ⟨true, some [5]⟩ true).2 = true) ∧
    ((⟨fun _ => 0⟩ : EEPROMBackend).begin = (⟨fun _ => 0⟩, true)) ∧
    ((⟨4096, true, none⟩ : LittleFSBackend).begin false =
      (⟨4096, true, none⟩, true)) ∧
    ((⟨4096, true, false, fun _ => 0, 0⟩ : SDCardBackend).begin
        ⟨false, none⟩ false =
      (⟨4096, true, false, fun _ => 0, 0⟩, true)) ∧
    (((⟨4096, false, none⟩ : LittleFSBackend).begin true).1.initialized =
      true) ∧
    (((⟨4096, false, false, fun _ => 0, 0⟩ : SDCardBackend).begin
        ⟨true, some [5]⟩ true).1.initialized = true) :=
  ⟨⟨rfl, rfl, rfl, rfl⟩,
   claim_C7 ⟨fun _ => 0⟩ ⟨4096, true, none⟩ false
     ⟨4096, true, false, fun _ => 0, 0⟩ ⟨false, none⟩ false
     ⟨4096, false, none⟩ true
     ⟨4096, false, false, fun _ => 0, 0⟩ ⟨true, some [5]⟩ true
     rfl rfl rfl rfl⟩

lemma replicate_getD (n i : Nat) (h : i < n) :
    (List.replicate n (255 : Nat)).getD i 0 = 255 := by
  rw [List.getD_eq_getElem _ _ (by simpa using h), List.getElem_replicate]

/-- Counterexample to C8 as stated: the filesystem-backed backend's
`erase(6000, 0)` has `address + size > capacity` yet returns `true`, not
`false` as the claim's capacity rule (explicitly including `n = 0`)
requires. -/
theorem claim_C8_counterexample :
    ((⟨4096, true, none⟩ : LittleFSBackend).erase 6000 0 (fun _ => 0)).2 =
      true ∧
    6000 + 0 > (⟨4096, true, none⟩ : LittleFSBackend).capacity := by
  exact ⟨rfl, by decide⟩

/-- C8 (amended): for every backend, `erase(a, n)` leaves the stored/cached
state exactly as `write(a, buf, n)` with `buf` equal to `n` bytes of `0xFF`
(same junk history for the filesystem backend); for `n > 0` the erase
returns `true` exactly when that write reports `n` bytes written, and in
general the EEPROM backend's erase returns `true` iff `a + n ≤ capacity`,
the cached SD backend's iff it is initialized and `a + n ≤ capacity`, while
the filesystem-backed backend's returns `write-result == n` when
initialized (hence `true` for `n = 0` even when `a` exceeds capacity, where
EEPROM and SD return `false` although the corresponding write also reports
`n = 0` bytes). -/
theorem claim_C8 (e : EEPROMBackend) (l : LittleFSBackend) (s : SDCardBackend)
    (a n m : Nat) (junk : Nat → Nat) (hm : m ≠ 0) :
    ((e.erase a n).1 = (e.write a (List.replicate n 255)).1) ∧
    ((e.erase a n).2 = decide (a + n ≤ 4096)) ∧
    ((l.erase a n junk).1 = (l.write a (List.replicate n 255) junk).1) ∧
    ((l.erase a n junk).2 =
      (l.initialized && ((l.write a (List.replicate n 255) junk).2 == n))) ∧
    ((s.erase a n).1 = (s.write a (List.replicate n 255)).1) ∧
    ((s.erase a n).2 = (s.initialized && decide (a + n ≤ s.capacity))) ∧
    ((e.erase a m).2 = decide ((e.write a (List.replicate m 255)).2 = m)) ∧
    ((l.erase a m junk).2 =
      decide ((l.write a (List.replicate m 255) junk).2 = m)) ∧
    ((s.erase a m).2 = decide ((s.write a (List.replicate m 255)).2 = m)) := by
  refine ⟨?_, ?_, ?_, ?_, ?_, ?_, ?_, ?_, ?_⟩
  · simp only [EEPROMBackend.erase, EEPROMBackend.write, EEPROMBackend.capacity,
      List.length_replicate]
    by_cases h : a + n > 4096
    · rw [if_pos h, if_pos h]
    · rw [if_neg h, if_neg h]
      simp only [EEPROMBackend.mk.injEq]
      funext x
      by_cases hx : a ≤ x ∧ x < a + n
      · rw [if_pos hx, if_pos hx, replicate_getD n (x - a) (by omega)]
      · rw [if_neg hx, if_neg hx]
  · simp only [EEPROMBackend.erase, EEPROMBackend.capacity]
    by_cases h : a + n ≤ 4096
    · rw [if_neg (by omega)]
      simp [h]
    · rw [if_pos (by omega)]
      simp [h]
  · by_cases hi : l.initialized = true
    · simp only [LittleFSBackend.erase]
      rw [if_neg (by simp [hi])]
    · simp only [LittleFSBackend.erase, LittleFSBackend.write]
      rw [if_pos (by simp [hi]), if_pos (Or.inl (by simp [hi]))]
  · by_cases hi : l.initialized = true
    · simp only [LittleFSBackend.erase]
      rw [if_neg (by simp [hi])]
      simp [hi, List.length_replicate]
    · simp only [LittleFSBackend.erase]
      rw [if_pos (by simp [hi])]
      simp [hi]
  · simp only [SDCardBackend.erase, SDCardBackend.write, List.length_replicate]
    by_cases h : ¬s.initialized = true ∨ a + n > s.capacity
    · rw [if_pos h, if_pos h]
    · rw [if_neg h, if_neg h]
      simp only [SDCardBackend.mk.injEq, and_true, true_and]
      funext x
      by_cases hx : a ≤ x ∧ x < a + n
      · rw [if_pos hx, if_pos hx, replicate_getD n (x - a) (by omega)]
      · rw [if_neg hx, if_neg hx]
  · simp only [SDCardBackend.erase]
    by_cases hi : s.initialized = true
    · by_cases h : a + n ≤ s.capacity
      · rw [if_neg (by simp [hi]; omega)]
        simp [hi, h]
      · rw [if_pos (Or.inr (by omega))]
        simp [hi, h]
    · rw [if_pos (Or.inl (by simp [hi]))]
      simp [hi]
  · simp only [EEPROMBackend.erase, EEPROMBackend.write, EEPROMBackend.capacity,
      List.length_replicate]
    by_cases h : a + m > 4096
    · rw [if_pos h, if_pos h]
      simp [Ne.symm hm]
    · rw [if_neg h, if_neg h]
      simp
  · by_cases hi : l.initialized = true
    · simp only [LittleFSBackend.erase]
      rw [if_neg (by simp [hi])]
      by_cases h : (l.write a (List.replicate m 255) junk).2 = m
      · simp [h]
      · simp [h]
    · simp only [LittleFSBackend.erase]
      rw [if_pos (by simp [hi])]
      simp [LittleFSBackend.write, hi, Ne.symm hm]
  · simp only [SDCardBackend.erase, SDCardBackend.write, List.length_replicate]
    by_cases h : ¬s.initialized = true ∨ a + m > s.capacity
    · rw [if_pos h, if_pos h]
      simp [Ne.symm hm]
    · rw [if_neg h, if_neg h]
      simp

/-- Witness for C8 at concrete inputs (`n = 3` out of capacity, `m = 1`). -/
theorem claim_C8_witness :
    ((1 : Nat) ≠ 0) ∧
    (((⟨fun _ => 9⟩ : EEPROMBackend).erase 4095 3).1 =
      ((⟨fun _ => 9⟩ : EEPROMBackend).write 4095 (List.replicate 3 255)).1) ∧
    (((⟨fun _ => 9⟩ : EEPROMBackend).erase 4095 3).2 =
      decide (4095 + 3 ≤ 4096)) ∧
    (((⟨4096, true, some [2]⟩ : LittleFSBackend).erase 4095 3
        (fun _ => 6)).1 =
      ((⟨4096, true, some [2]⟩ : LittleFSBackend).write 4095
        (List.replicate 3 255) (fun _ => 6)).1) ∧
    (((⟨4096, true, some [2]⟩ : LittleFSBackend).erase 4095 3
        (fun _ => 6)).2 =
      ((⟨4096, true, some [2]⟩ : LittleFSBackend).initialized &&
        (((⟨4096, true, some [2]⟩ : LittleFSBackend).write 4095
          (List.replicate 3 255) (fun _ => 6)).2 == 3))) ∧
    (((⟨4096, true, false, fun _ => 1, 2⟩ : SDCardBackend).erase 4095 3).1 =
      ((⟨4096, true, false, fun _ => 1, 2⟩ : SDCardBackend).write 4095
        (List.replicate 3 255)).1) ∧
    (((⟨4096, true, false, fun _ => 1, 2⟩ : SDCardBackend).erase 4095 3).2 =
      ((⟨4096, true, false, fun _ => 1, 2⟩ : SDCardBackend).initialized &&
        decide (4095 + 3 ≤
          (⟨4096, true, false, fun _ => 1, 2⟩ : SDCardBackend).capacity))) ∧
    (((⟨fun _ => 9⟩ : EEPROMBackend).erase 4095 1).2 =
      decide (((⟨fun _ => 9⟩ : EEPROMBackend).write 4095
        (List.replicate 1 255)).2 = 1)) ∧
    (((⟨4096, true, some [2]⟩ : LittleFSBackend).erase 4095 1
        (fun _ => 6)).2 =
      decide (((⟨4096, true, some [2]⟩ : LittleFSBackend).write 4095
        (List.replicate 1 255) (fun _ => 6)).2 = 1)) ∧
    (((⟨4096, true, false, fun _ => 1, 2⟩ : SDCardBackend).erase 4095 1).2 =
      decide (((⟨4096, true, false, fun _ => 1, 2⟩ : SDCardBackend).write 4095
        (List.replicate 1 255)).2 = 1)) :=
  ⟨by decide,
   claim_C8 ⟨fun _ => 9⟩ ⟨4096, true, some [2]⟩
     ⟨4096, true, false, fun _ => 1, 2⟩ 4095 3 1 (fun _ => 6) (by decide)⟩

lemma EEPROM_read_fst (e : EEPROMBackend) (a n : Nat) :
    (e.read a n).1 = e := by
  simp only [EEPROMBackend.read]
  split <;> rfl

lemma LFS_read_fst (l : LittleFSBackend) (a n : Nat) :
    (l.read a n).1 = l := by
  simp only [LittleFSBackend.read]
  split
  · rfl
  · cases l.file <;> rfl

lemma SD_read_fst (s : SDCardBackend) (a n : Nat) :
    (s.read a n).1 = s := by
  simp only [SDCardBackend.read]
  split
  · rfl
  · split
    · rfl
    · split <;> rfl

lemma Direct_read_fst (d : Direct.SDCardBackend) (a n : Nat) :
    (d.read a n).1 = d := by
  cases hf : d.file with
  | none => simp [Direct.SDCardBackend.read, hf]
  | some c =>
    simp only [Direct.SDCardBackend.read, hf]
    split
    · rfl
    · split <;> rfl

/-- C9: for every backend, `read` never modifies any backend state other
than the caller-supplied output buffer: the state it returns (cache content
and length, dirty flag, initialized flag, capacity, persisted file/EEPROM
content) is exactly the pre-call state, whether the read succeeds or is
rejected. -/
theorem claim_C9 (e : EEPROMBackend) (l : LittleFSBackend) (s : SDCardBackend)
    (d : Direct.SDCardBackend) (a n : Nat) :
    (e.read a n).1 = e ∧ (l.read a n).1 = l ∧ (s.read a n).1 = s ∧
    (d.read a n).1 = d :=
  ⟨EEPROM_read_fst e a n, LFS_read_fst l a n, SD_read_fst s a n,
   Direct_read_fst d a n⟩

lemma SD_step_capacity (st : SDCardBackend) (op : SDOp) :
    (st.step op).capacity = st.capacity := by
  cases op with
  | beginOp sd ok =>
    simp only [SDCardBackend.step, SDCardBackend.begin]
    split
    · rfl
    · split
      · rfl
      · cases sd.file <;> rfl
  | readOp a n =>
    simp only [SDCardBackend.step]
    rw [SD_read_fst]
  | writeOp a buf =>
    simp only [SDCardBackend.step, SDCardBackend.write]
    split <;> rfl
  | eraseOp a n =>
    simp only [SDCardBackend.step, SDCardBackend.erase]
    split <;> rfl
  | commitOp sd ok t =>
    simp only [SDCardBackend.step, SDCardBackend.commit]
    split
    · rfl
    · split
      · rfl
      · split <;> rfl

lemma SD_step_inv (st : SDCardBackend) (op : SDOp)
    (h : st.cacheLen ≤ st.capacity) :
    (st.step op).cacheLen ≤ (st.step op).capacity := by
  rw [SD_step_capacity]
  cases op with
  | beginOp sd ok =>
    simp only [SDCardBackend.step, SDCardBackend.begin]
    split
    · exact h
    · split
      · exact h
      · cases sd.file with
        | none => simp
        | some c => simp
  | readOp a n =>
    simp only [SDCardBackend.step]
    rw [SD_read_fst]
    exact h
  | writeOp a buf =>
    simp only [SDCardBackend.step, SDCardBackend.write]
    by_cases hg : ¬st.initialized = true ∨ a + buf.length > st.capacity
    · rw [if_pos hg]
      exact h
    · rw [if_neg hg]
      push_neg at hg
      simp only []
      omega
  | eraseOp a n =>
    simp only [SDCardBackend.step, SDCardBackend.erase]
    by_cases hg : ¬st.initialized = true ∨ a + n > st.capacity
    · rw [if_pos hg]
      exact h
    · rw [if_neg hg]
      push_neg at hg
      simp only []
      omega
  | commitOp sd ok t =>
    simp only [SDCardBackend.step, SDCardBackend.commit]
    split
    · exact h
    · split
      · exact h
      · split <;> exact h

/-- C10: starting from a freshly constructed cached SD backend of any
capacity, after any sequence of `begin`/`read`/`write`/`erase`/`commit`
calls (there is no `setCapacity` among them), the cache buffer's length
never exceeds the capacity: `cacheSize() ≤ capacity()`. -/
theorem claim_C10 (cap : Nat) (ops : List SDOp) :
    (SDCardBackend.cacheSize (SDCardBackend.run (SDCardBackend.mk0 cap) ops)) ≤
      (SDCardBackend.capacityOf
        (SDCardBackend.run (SDCardBackend.mk0 cap) ops)) := by
  suffices h : ∀ st : SDCardBackend, st.cacheLen ≤ st.capacity →
      (st.run ops).cacheLen ≤ (st.run ops).capacity by
    exact h _ (by simp [SDCardBackend.mk0])
  induction ops with
  | nil =>
    intro st h
    simpa [SDCardBackend.run] using h
  | cons op rest ih =>
    intro st h
    simp only [SDCardBackend.run, List.foldl_cons] at *
    exact ih _ (SD_step_inv st op h)
